import Mathlib

/-!
Verification of the sandbox resource manager (`src/utils/klavis_sandbox.py`)
and the workspace archive sync helpers
(`src/utils/app_specific/local_dev/local_dev_sandbox.py`).

The HTTP effects of the remote provisioning service are abstracted into
oracle functions: an acquisition oracle maps the sandbox server name sent in
`POST /sandbox/{server_name}` to the parsed JSON response (`none` stands for
any failure: network error, non-2xx status, or malformed body — the code
treats all three identically), and a release oracle maps the
(server_name, sandbox_id) of a `DELETE` call to a success flag.  Python dicts
are modelled as insertion-ordered association lists with key-unique update.
-/

namespace KlavisVerif

/-- The parsed JSON body of a successful `POST /sandbox/{server_name}`
response, as consumed by `klavis_sandbox.py`: optional `sandbox_id`,
`server_name` and `server_urls` fields (`server_urls` is a dict mapping a
remote server name to its streamable-http URL, modelled as an
insertion-ordered association list). -/
structure SandboxResponse where
  sandbox_id : Option String
  server_name : Option String
  server_urls : Option (List (String × String))
deriving Repr, DecidableEq

/-- `LOCAL_DEV_SERVER_NAMES` from `klavis_sandbox.py`: task server names that
are acquired via a single shared `local_dev` sandbox. -/
def LOCAL_DEV_SERVER_NAMES : List String :=
  ["filesystem", "git", "terminal", "python_execute",
   "pdf-tools", "excel", "word", "pptx", "arxiv_local"]

/-- `LOCAL_DEV_TASK_TO_REMOTE_NAME` from `klavis_sandbox.py`: task server
name to the key used in the `local_dev` sandbox's `server_urls` response. -/
def LOCAL_DEV_TASK_TO_REMOTE_NAME : List (String × String) :=
  [("python_execute", "code-executor"), ("pptx", "powerpoint"),
   ("arxiv_local", "arxiv")]

/-- `TASK_SERVER_TO_SANDBOX_NAME` from `klavis_sandbox.py`: task server name
to the sandbox server name to acquire. -/
def TASK_SERVER_TO_SANDBOX_NAME : List (String × String) :=
  [("arxiv-latex", "arxiv_latex"), ("google_sheet", "google_sheets"),
   ("wandb", "weights_and_biases"), ("emails", "poste_email_toolathlon")]

/-- Association-list lookup (first match wins), the model of Python dict
indexing and of the `in` test on dict keys. -/
def alookup : List (String × String) → String → Option String
  | [], _ => none
  | (k', v) :: t, k => if k' = k then some v else alookup t k

/-- Python dict assignment `d[k] = v`: replace the value at an existing key
in place, otherwise append the new pair at the end. -/
def dinsert : List (String × String) → String → String → List (String × String)
  | [], k, v => [(k, v)]
  | (k', v') :: t, k, v =>
    if k' = k then (k, v) :: t else (k', v') :: dinsert t k v

/-- Python `table.get(k, k)`: lookup with the key itself as default. -/
def getDflt (table : List (String × String)) (k : String) : String :=
  match alookup table k with
  | some v => v
  | none => k

/-- Membership in `LOCAL_DEV_SERVER_NAMES` (`n in LOCAL_DEV_SERVER_NAMES`). -/
def isLocalDevName (n : String) : Bool :=
  LOCAL_DEV_SERVER_NAMES.contains n

/-- `TASK_SERVER_TO_SANDBOX_NAME.get(name, name)` in `acquire_for_servers`. -/
def resolveSandboxName (n : String) : String :=
  getDflt TASK_SERVER_TO_SANDBOX_NAME n

/-- `LOCAL_DEV_TASK_TO_REMOTE_NAME.get(task_name, task_name)`. -/
def remoteNameOf (n : String) : String :=
  getDflt LOCAL_DEV_TASK_TO_REMOTE_NAME n

/-- `KlavisSandbox.acquire`: issue one acquisition request.  On a successful
response the parsed body is appended to `acquired_sandboxes` and returned;
on any failure the state is unchanged and `none` is returned (the exception
is caught, logged, and swallowed inside `acquire`). -/
def acquire (oracle : String → Option SandboxResponse)
    (acquired_sandboxes : List SandboxResponse) (server_name : String) :
    List SandboxResponse × Option SandboxResponse :=
  match oracle server_name with
  | some data => (acquired_sandboxes ++ [data], some data)
  | none => (acquired_sandboxes, none)

/-- The observable outcome of one `acquire_for_servers` run: the session's
`acquired_sandboxes` list, the accumulated `overrides` dict, and the ordered
trace of sandbox server names sent to `POST /sandbox/{name}`. -/
structure RunResult where
  acquired : List SandboxResponse
  overrides : List (String × String)
  calls : List String
deriving Repr, DecidableEq

/-- The key under which one `(sname, surl)` pair of a non-local_dev response
is stored: `key = name if sname == sandbox_name else sname`. -/
def keyFor (name sandbox_name : String) (p : String × String) : String :=
  if p.1 = sandbox_name then name else p.1

/-- The inner loop `for sname, surl in result["server_urls"].items()` of
`acquire_for_servers` for one non-local_dev server: every pair is stored
into `overrides` under `keyFor`. -/
def applyUrlPairs (name sandbox_name : String) (urls : List (String × String))
    (overrides : List (String × String)) : List (String × String) :=
  urls.foldl (fun ov p => dinsert ov (keyFor name sandbox_name p) p.2) overrides

/-- One iteration of the `for name in other_servers` loop of
`acquire_for_servers`: resolve the sandbox name, call `acquire`, and on a
truthy `server_urls` store every returned pair. -/
def acquireOther (oracle : String → Option SandboxResponse)
    (st : RunResult) (name : String) : RunResult :=
  let sandbox_name := resolveSandboxName name
  let (acq, result) := acquire oracle st.acquired sandbox_name
  let calls := st.calls ++ [sandbox_name]
  match result with
  | some r =>
    match r.server_urls with
    | some urls =>
      if urls.isEmpty then ⟨acq, st.overrides, calls⟩
      else ⟨acq, applyUrlPairs name sandbox_name urls st.overrides, calls⟩
    | none => ⟨acq, st.overrides, calls⟩
  | none => ⟨acq, st.overrides, calls⟩

/-- The `for task_name in local_dev_requested` loop of `acquire_for_servers`:
each requested grouped name whose remote name has a URL in the `local_dev`
response is stored under the original task name. -/
def mapLocalDev (local_dev_requested : List String)
    (api_urls : List (String × String))
    (overrides : List (String × String)) : List (String × String) :=
  local_dev_requested.foldl (fun ov task_name =>
    match alookup api_urls (remoteNameOf task_name) with
    | some u => dinsert ov task_name u
    | none => ov) overrides

/-- `KlavisSandbox.acquire_for_servers`: partition the requested names into
local_dev vs. others, acquire one shared `local_dev` sandbox for the grouped
subset if non-empty, then acquire one sandbox per remaining name, returning
the session state, the overrides dict, and the trace of acquisition calls.
(The request body — benchmark tag plus per-server extra params — is
absorbed into the oracle, since it does not feed back into this logic.) -/
def acquire_for_servers (oracle : String → Option SandboxResponse)
    (server_names : List String) (init : List SandboxResponse) : RunResult :=
  let local_dev_requested := server_names.filter (fun n => isLocalDevName n)
  let other_servers := server_names.filter (fun n => !isLocalDevName n)
  let st0 : RunResult := ⟨init, [], []⟩
  let st1 :=
    if local_dev_requested.isEmpty then st0
    else
      let (acq, result) := acquire oracle st0.acquired "local_dev"
      let calls := st0.calls ++ ["local_dev"]
      match result with
      | some r =>
        match r.server_urls with
        | some api_urls =>
          if api_urls.isEmpty then ⟨acq, st0.overrides, calls⟩
          else ⟨acq, mapLocalDev local_dev_requested api_urls st0.overrides, calls⟩
        | none => ⟨acq, st0.overrides, calls⟩
      | none => ⟨acq, st0.overrides, calls⟩
  other_servers.foldl (acquireOther oracle) st1

/-- The outcome of `KlavisSandbox.release_all`: the session state afterwards
and the ordered trace of `DELETE /sandbox/{server_name}/{sandbox_id}` calls
that were issued. -/
structure ReleaseRun where
  state : List SandboxResponse
  deletes : List (String × String)
deriving Repr, DecidableEq

/-- The delete call issued for one tracked record, if any: skipped
(`continue`) when `sandbox.get("sandbox_id")` or `sandbox.get("server_name")`
is falsy (absent or the empty string). -/
def deleteCallOf (sandbox : SandboxResponse) : Option (String × String) :=
  match sandbox.sandbox_id, sandbox.server_name with
  | some sandbox_id, some server_name =>
    if sandbox_id = "" ∨ server_name = "" then none
    else some (server_name, sandbox_id)
  | _, _ => none

/-- `KlavisSandbox.release_all`: issue one delete call per tracked record
that has truthy `sandbox_id` and `server_name`, then clear the collection
unconditionally.  Each delete's outcome (the release oracle) is only
logged — it never influences the resulting state or trace, and no error is
ever propagated to the caller. -/
def release_all (_releaseOracle : String → String → Bool)
    (acquired_sandboxes : List SandboxResponse) : ReleaseRun :=
  { state := [], deletes := acquired_sandboxes.filterMap deleteCallOf }

/-- The state of a freshly constructed `KlavisSandbox`. -/
structure KlavisSandboxState where
  api_key : String
  acquired_sandboxes : List SandboxResponse
deriving Repr, DecidableEq

/-- Python truthiness of an optional string (`None` and `""` are falsy). -/
def truthyStr : Option String → Bool
  | some s => !(s = "")
  | none => false

/-- Python `api_key or os.environ.get("KLAVIS_API_KEY")`: the argument when
truthy, otherwise the environment value. -/
def orElseTruthy (api_key env_value : Option String) : Option String :=
  match api_key with
  | some k => if k = "" then env_value else some k
  | none => env_value

/-- `KlavisSandbox.__init__`: resolve the credential from the argument or
the environment and raise `ValueError("KLAVIS_API_KEY is required")` when
the result is falsy; otherwise the instance starts with an empty
`acquired_sandboxes` list. -/
def KlavisSandbox_init (api_key env_value : Option String) :
    Except String KlavisSandboxState :=
  match orElseTruthy api_key env_value with
  | some k =>
    if k = "" then Except.error "KLAVIS_API_KEY is required"
    else Except.ok ⟨k, []⟩
  | none => Except.error "KLAVIS_API_KEY is required"

/-! ### Workspace archive sync (`local_dev_sandbox.py`) -/

/-- A node of the local directory tree walked by `_collect_files`
(`Path.rglob` yielding every regular file, with paths relative to the
root).  File contents are byte lists. -/
inductive FSEntry where
  | file (name : String) (content : List Nat)
  | dir (name : String) (children : List FSEntry)
deriving Repr

mutual

/-- `_collect_files` on one entry: relative path plus content of every
regular file below it. -/
def collectEntry (pre : List String) : FSEntry → List (List String × List Nat)
  | .file n c => [(pre ++ [n], c)]
  | .dir n cs => collectChildren (pre ++ [n]) cs

/-- `_collect_files` on a list of sibling entries. -/
def collectChildren (pre : List String) : List FSEntry → List (List String × List Nat)
  | [] => []
  | e :: es => collectEntry pre e ++ collectChildren pre es

end

/-- The remote transfer steps `upload_workspace` can issue, in order:
`POST /upload-url`, the raw `PUT` of the archive bytes to the signed GCS
URL, and `POST /initialize`. -/
inductive UploadStep where
  | getUploadUrl
  | putToGcs
  | triggerInit
deriving Repr, DecidableEq

/-- The value `upload_workspace` returns on success: either the early no-op
dict for an empty directory, or the parsed body of the `/initialize`
response (abstracted to an opaque payload). -/
inductive UploadOutcome where
  | noop (sandbox_id status message : String)
  | finished (payload : String)
deriving Repr, DecidableEq

/-- `upload_workspace`: collect the files under `directory`; if none were
found return the no-op result immediately; otherwise build the in-memory
archive (the collected relative paths and contents) and run the three
remote steps, where each failing step raises (`Except.error`) and stops the
run.  The result pairs the trace of steps issued with the outcome.
Oracles: `urlOracle` is the `upload_url` of the `POST /upload-url` response
(`none` for any failure), `putOracle` tells whether the `PUT` of the archive
succeeded, `initOracle` is the parsed `POST /initialize` response. -/
def upload_workspace (sandbox_id : String) (directory : List FSEntry)
    (urlOracle : Option String)
    (putOracle : String → List (List String × List Nat) → Bool)
    (initOracle : Option String) :
    List UploadStep × Except String UploadOutcome :=
  let collected := collectChildren [] directory
  if collected.isEmpty then
    ([], Except.ok (.noop sandbox_id "idle" "No files to upload"))
  else
    match urlOracle with
    | none => ([.getUploadUrl], Except.error "upload-url request failed")
    | some upload_url =>
      if putOracle upload_url collected then
        match initOracle with
        | some payload =>
          ([.getUploadUrl, .putToGcs, .triggerInit], Except.ok (.finished payload))
        | none =>
          ([.getUploadUrl, .putToGcs, .triggerInit],
           Except.error "initialize request failed")
      else ([.getUploadUrl, .putToGcs], Except.error "gcs upload failed")

/-- The name of one member of a tar archive: whether it is absolute, and
its path components (which may contain `..` or `.`). -/
structure TarMemberName where
  isAbs : Bool
  components : List String
deriving Repr, DecidableEq

/-- One member of a downloaded tar archive. -/
structure TarMember where
  name : TarMemberName
  content : List Nat
deriving Repr, DecidableEq

/-- Lexically resolve a relative member name against the destination
directory: `.` and empty components are dropped, `..` pops the last
component, and popping past the destination root means the name escapes the
destination (`none`). -/
def normInside (components : List String) : Option (List String) :=
  components.foldl (fun acc c =>
    match acc with
    | none => none
    | some st =>
      if c = "." ∨ c = "" then some st
      else if c = ".." then
        match st with
        | [] => none
        | _ => some st.dropLast
      else some (st ++ [c])) (some [])

/-- Modelled from the spec: the member-name handling of the `data`
extraction filter that `download_workspace` passes to
`tarfile.extractall(path=directory, filter="data")` (the filter itself
lives in the Python standard library, not in this repository).  Per the
spec, entries resolving outside the target directory must be rejected, not
silently written: absolute names are rejected, and a relative name is
rejected unless its lexical resolution stays inside the destination. -/
def dataFilterResolve (n : TarMemberName) : Option (List String) :=
  if n.isAbs then none else normInside n.components

/-- `tar.extractall(path=directory, filter="data")`: members are extracted
in order; a member the filter rejects raises, aborting the run (members
already written stay on disk).  Returns the list of absolute paths written
and the outcome. -/
def extractall (directory : List String) :
    List TarMember → List (List String) × Except String Unit
  | [] => ([], Except.ok ())
  | m :: rest =>
    match dataFilterResolve m.name with
    | none => ([], Except.error "filter: path outside destination")
    | some r =>
      ((directory ++ r) :: (extractall directory rest).1,
       (extractall directory rest).2)

/-- `os.makedirs(directory, exist_ok=True)`. -/
def makedirs (dirs : List (List String)) (d : List String) : List (List String) :=
  if dirs.contains d then dirs else dirs ++ [d]

/-- The observable outcome of one `download_workspace` run: the directories
existing afterwards, the file paths written, and the final outcome. -/
structure DownloadRun where
  dirs : List (List String)
  written : List (List String)
  outcome : Except String Unit
deriving Repr

/-- `download_workspace`: create the destination directory first, then
`GET /dump` for the signed download URL (`dumpOracle`), then stream the
archive from that URL (`gcsOracle`) and extract it into `directory` with
the `data` filter.  Either `GET` failing raises after the directory was
already created. -/
def download_workspace (dirs0 : List (List String)) (directory : List String)
    (dumpOracle : Option String)
    (gcsOracle : String → Option (List TarMember)) : DownloadRun :=
  let dirs := makedirs dirs0 directory
  match dumpOracle with
  | none => ⟨dirs, [], Except.error "dump request failed"⟩
  | some download_url =>
    match gcsOracle download_url with
    | none => ⟨dirs, [], Except.error "archive download failed"⟩
    | some archive =>
      ⟨dirs, (extractall directory archive).1, (extractall directory archive).2⟩

/-! ### Derived views of the acquisition run, and concrete oracles used to
instantiate the theorems below. -/

/-- The effect of one `other_servers` iteration on the `overrides` dict
alone (the overrides component of `acquireOther`). -/
def ovStep (oracle : String → Option SandboxResponse) (n : String)
    (ov : List (String × String)) : List (String × String) :=
  match oracle (resolveSandboxName n) with
  | some r =>
    match r.server_urls with
    | some urls => applyUrlPairs n (resolveSandboxName n) urls ov
    | none => ov
  | none => ov

/-- A store step that writes `f t` (when present) under key `t` itself. -/
def keyedStore (f : String → Option String) (ov : List (String × String))
    (t : String) : List (String × String) :=
  match f t with
  | some u => dinsert ov t u
  | none => ov

/-- The URL an ungrouped name contributes when its response carries at
least one `server_urls` entry: the first entry's URL. -/
def uVal (oracle : String → Option SandboxResponse) (n : String) : Option String :=
  match oracle (resolveSandboxName n) with
  | some r =>
    match r.server_urls with
    | some ((_, u) :: _) => some u
    | _ => none
  | none => none

/-- The remote service behaves as documented for the ungrouped names of a
request: a call for such a name either fails outright or returns a
`server_urls` map holding exactly one entry, keyed by the sandbox server
name that was requested. -/
def WellFormedUngrouped (oracle : String → Option SandboxResponse)
    (server_names : List String) : Prop :=
  ∀ n ∈ server_names, isLocalDevName n = false →
    oracle (resolveSandboxName n) = none ∨
    ∃ r u, oracle (resolveSandboxName n) = some r ∧
      r.server_urls = some [(resolveSandboxName n, u)]

/-- The overrides accumulated by the grouped (local_dev) phase alone. -/
def groupedOverrides (oracle : String → Option SandboxResponse)
    (server_names : List String) : List (String × String) :=
  let local_dev_requested := server_names.filter (fun n => isLocalDevName n)
  if local_dev_requested.isEmpty then []
  else
    match oracle "local_dev" with
    | some r =>
      match r.server_urls with
      | some api_urls =>
        if api_urls.isEmpty then []
        else mapLocalDev local_dev_requested api_urls []
      | none => []
    | none => []

/-- A remote behavior where the acquisition of `poste_email_toolathlon`
(the sandbox name for the task name `emails`) answers with a two-entry
`server_urls` map. -/
def c1Oracle : String → Option SandboxResponse := fun s =>
  if s = "poste_email_toolathlon" then
    some ⟨some "sb-1", some "poste_email_toolathlon",
          some [("alpha", "u1"), ("beta", "u2")]⟩
  else none

/-- A remote behavior with a documented-shape response for `emails`, a
grouped `local_dev` response serving `filesystem`, and a failing
acquisition for `notion`. -/
def c5Oracle : String → Option SandboxResponse := fun s =>
  if s = "local_dev" then
    some ⟨some "sb-ld", some "local_dev", some [("filesystem", "u-fs")]⟩
  else if s = "poste_email_toolathlon" then
    some ⟨some "sb-em", some "poste_email_toolathlon",
          some [("poste_email_toolathlon", "u-em")]⟩
  else none

/-- A remote behavior whose `local_dev` acquisition succeeds with a body
that has no `server_urls` field. -/
def c4Oracle : String → Option SandboxResponse := fun s =>
  if s = "local_dev" then some ⟨some "sb-ld", some "local_dev", none⟩
  else none

/-- A tracked record lacking the `sandbox_id` field. -/
def c10Record : SandboxResponse := ⟨none, some "local_dev", none⟩

/-- A complete tracked record. -/
def c10Other : SandboxResponse := ⟨some "sb-2", some "notion", none⟩

/-- A one-member archive whose entry resolves to `../../etc/passwd`. -/
def c6Archive : List TarMember :=
  [⟨⟨false, ["..", "..", "etc", "passwd"]⟩, [7]⟩]

/-- A benign one-member archive. -/
def c6GoodArchive : List TarMember :=
  [⟨⟨false, ["sub", "a.txt"]⟩, [1, 2]⟩]

/-- A directory containing a subdirectory but no regular file anywhere. -/
def c8EmptyDir : List FSEntry := [.dir "sub" [.dir "inner" []]]

/-- A directory holding one regular file. -/
def c7Dir : List FSEntry := [.file "a.txt" [1, 2, 3]]

/-! ### Helper lemmas on the dict model -/

theorem alookup_dinsert_self (m : List (String × String)) (k v : String) :
    alookup (dinsert m k v) k = some v := by
  induction m with
  | nil => simp [dinsert, alookup]
  | cons p t ih =>
    rcases p with ⟨k', v'⟩
    by_cases h : k' = k <;> simp [dinsert, alookup, h, ih]

theorem alookup_dinsert_ne (m : List (String × String)) (k v k' : String)
    (h : k ≠ k') : alookup (dinsert m k v) k' = alookup m k' := by
  induction m with
  | nil => simp [dinsert, alookup, h]
  | cons p t ih =>
    rcases p with ⟨k₀, v₀⟩
    by_cases h₀ : k₀ = k
    · subst h₀
      simp [dinsert, alookup, h]
    · simp [dinsert, alookup, h₀, ih]

theorem dinsert_length_of_absent (m : List (String × String)) (k v : String)
    (h : alookup m k = none) : (dinsert m k v).length = m.length + 1 := by
  induction m with
  | nil => simp [dinsert]
  | cons p t ih =>
    rcases p with ⟨k₀, v₀⟩
    by_cases h₀ : k₀ = k
    · simp [alookup, h₀] at h
    · simp [alookup, h₀] at h
      simp [dinsert, h₀, ih h]

theorem alookup_applyUrlPairs_of_not_key (name sn : String)
    (urls : List (String × String)) (ov : List (String × String)) (k : String)
    (h : ∀ p ∈ urls, keyFor name sn p ≠ k) :
    alookup (applyUrlPairs name sn urls ov) k = alookup ov k := by
  induction urls generalizing ov with
  | nil => rfl
  | cons q qs ih =>
    have hstep : applyUrlPairs name sn (q :: qs) ov
        = applyUrlPairs name sn qs (dinsert ov (keyFor name sn q) q.2) := rfl
    rw [hstep, ih _ (fun p hp => h p (List.mem_cons_of_mem _ hp)),
      alookup_dinsert_ne _ _ _ _ (h q (List.mem_cons_self _ _))]

theorem alookup_applyUrlPairs_mem (name sn : String)
    (urls : List (String × String)) (ov : List (String × String))
    (p : String × String) (hp : p ∈ urls)
    (hnd : (urls.map (keyFor name sn)).Nodup) :
    alookup (applyUrlPairs name sn urls ov) (keyFor name sn p) = some p.2 := by
  induction urls generalizing ov with
  | nil => cases hp
  | cons q qs ih =>
    have hstep : applyUrlPairs name sn (q :: qs) ov
        = applyUrlPairs name sn qs (dinsert ov (keyFor name sn q) q.2) := rfl
    rw [List.map_cons, List.nodup_cons] at hnd
    rcases List.mem_cons.mp hp with rfl | hp'
    · rw [hstep, alookup_applyUrlPairs_of_not_key _ _ _ _ _
        (fun r hr hkey => hnd.1 (by rw [← hkey]; exact List.mem_map_of_mem _ hr)),
        alookup_dinsert_self]
    · rw [hstep]
      exact ih _ hp' hnd.2

theorem applyUrlPairs_length (name sn : String)
    (urls : List (String × String)) (ov : List (String × String))
    (hnd : (urls.map (keyFor name sn)).Nodup)
    (habs : ∀ p ∈ urls, alookup ov (keyFor name sn p) = none) :
    (applyUrlPairs name sn urls ov).length = ov.length + urls.length := by
  induction urls generalizing ov with
  | nil => rfl
  | cons q qs ih =>
    have hstep : applyUrlPairs name sn (q :: qs) ov
        = applyUrlPairs name sn qs (dinsert ov (keyFor name sn q) q.2) := rfl
    rw [List.map_cons, List.nodup_cons] at hnd
    have habs' : ∀ p ∈ qs,
        alookup (dinsert ov (keyFor name sn q) q.2) (keyFor name sn p) = none := by
      intro p hp
      have hne : keyFor name sn q ≠ keyFor name sn p :=
        fun hkey => hnd.1 (hkey ▸ List.mem_map_of_mem _ hp)
      rw [alookup_dinsert_ne _ _ _ _ hne]
      exact habs p (List.mem_cons_of_mem _ hp)
    rw [hstep, ih _ hnd.2 habs',
      dinsert_length_of_absent _ _ _ (habs q (List.mem_cons_self _ _))]
    simp only [List.length_cons]
    omega

theorem alookup_foldl_keyedStore (f : String → Option String)
    (l : List String) (ov : List (String × String)) (k : String) :
    alookup (l.foldl (keyedStore f) ov) k
      = if k ∈ l ∧ (f k).isSome then f k else alookup ov k := by
  induction l generalizing ov with
  | nil => simp
  | cons t ts ih =>
    rw [List.foldl_cons, ih]
    by_cases hmem : k ∈ ts ∧ (f k).isSome
    · simp [hmem, hmem.1, hmem.2]
    · rw [if_neg hmem]
      by_cases hkt : k = t
      · subst hkt
        cases hf : f k with
        | none => simp [keyedStore, hf]
        | some u => simp [keyedStore, hf, alookup_dinsert_self]
      · have hcond : (k ∈ t :: ts ∧ (f k).isSome) ↔ (k ∈ ts ∧ (f k).isSome) := by
          constructor
          · rintro ⟨hm, hs⟩
            rcases List.mem_cons.mp hm with rfl | hm'
            · exact absurd rfl hkt
            · exact ⟨hm', hs⟩
          · rintro ⟨hm, hs⟩
            exact ⟨List.mem_cons_of_mem _ hm, hs⟩
        rw [if_neg (fun hc => hmem (hcond.mp hc))]
        cases hf : f t with
        | none => simp [keyedStore, hf]
        | some u => simp [keyedStore, hf, alookup_dinsert_ne _ _ _ _ (Ne.symm hkt)]

/-! ### Structure of one `acquire_for_servers` run -/

theorem acquireOther_overrides (oracle : String → Option SandboxResponse)
    (st : RunResult) (n : String) :
    (acquireOther oracle st n).overrides = ovStep oracle n st.overrides := by
  cases horacle : oracle (resolveSandboxName n) with
  | none => simp [acquireOther, acquire, ovStep, horacle]
  | some r =>
    cases hurls : r.server_urls with
    | none => simp [acquireOther, acquire, ovStep, horacle, hurls]
    | some urls =>
      cases urls with
      | nil => simp [acquireOther, acquire, ovStep, horacle, hurls, applyUrlPairs]
      | cons p ps => simp [acquireOther, acquire, ovStep, horacle, hurls]

theorem acquireOther_calls (oracle : String → Option SandboxResponse)
    (st : RunResult) (n : String) :
    (acquireOther oracle st n).calls = st.calls ++ [resolveSandboxName n] := by
  cases horacle : oracle (resolveSandboxName n) with
  | none => simp [acquireOther, acquire, horacle]
  | some r =>
    cases hurls : r.server_urls with
    | none => simp [acquireOther, acquire, horacle, hurls]
    | some urls =>
      cases urls with
      | nil => simp [acquireOther, acquire, horacle, hurls]
      | cons p ps => simp [acquireOther, acquire, horacle, hurls]

theorem acquireOther_acquired (oracle : String → Option SandboxResponse)
    (st : RunResult) (n : String) :
    (acquireOther oracle st n).acquired
      = st.acquired ++ (oracle (resolveSandboxName n)).toList := by
  cases horacle : oracle (resolveSandboxName n) with
  | none => simp [acquireOther, acquire, horacle, Option.toList]
  | some r =>
    cases hurls : r.server_urls with
    | none => simp [acquireOther, acquire, horacle, hurls, Option.toList]
    | some urls =>
      cases urls with
      | nil => simp [acquireOther, acquire, horacle, hurls, Option.toList]
      | cons p ps => simp [acquireOther, acquire, horacle, hurls, Option.toList]

theorem foldl_acquireOther_overrides (oracle : String → Option SandboxResponse)
    (l : List String) (st : RunResult) :
    (l.foldl (acquireOther oracle) st).overrides
      = l.foldl (fun ov n => ovStep oracle n ov) st.overrides := by
  induction l generalizing st with
  | nil => rfl
  | cons n ns ih =>
    rw [List.foldl_cons, List.foldl_cons, ih, acquireOther_overrides]

theorem foldl_acquireOther_calls (oracle : String → Option SandboxResponse)
    (l : List String) (st : RunResult) :
    (l.foldl (acquireOther oracle) st).calls
      = st.calls ++ l.map resolveSandboxName := by
  induction l generalizing st with
  | nil => simp
  | cons n ns ih =>
    rw [List.foldl_cons, ih, acquireOther_calls, List.map_cons,
      List.append_assoc, List.singleton_append]

theorem foldl_acquireOther_acquired (oracle : String → Option SandboxResponse)
    (l : List String) (st : RunResult) :
    (l.foldl (acquireOther oracle) st).acquired
      = st.acquired ++ l.filterMap (fun n => oracle (resolveSandboxName n)) := by
  induction l generalizing st with
  | nil => simp
  | cons n ns ih =>
    rw [List.foldl_cons, ih, acquireOther_acquired, List.append_assoc]
    cases horacle : oracle (resolveSandboxName n) with
    | none => simp [List.filterMap_cons, horacle, Option.toList]
    | some r => simp [List.filterMap_cons, horacle, Option.toList]

theorem acquire_for_servers_eq (oracle : String → Option SandboxResponse)
    (server_names : List String) (init : List SandboxResponse) :
    acquire_for_servers oracle server_names init
      = (server_names.filter (fun n => !isLocalDevName n)).foldl
          (acquireOther oracle)
          ⟨init ++ (if (server_names.filter (fun n => isLocalDevName n)).isEmpty
              then [] else (oracle "local_dev").toList),
            groupedOverrides oracle server_names,
            if (server_names.filter (fun n => isLocalDevName n)).isEmpty
              then [] else ["local_dev"]⟩ := by
  unfold acquire_for_servers groupedOverrides
  by_cases h : (server_names.filter (fun n => isLocalDevName n)).isEmpty
  · simp [h, acquire]
  · cases horacle : oracle "local_dev" with
    | none => simp [h, horacle, acquire, Option.toList]
    | some r =>
      cases hurls : r.server_urls with
      | none => simp [h, horacle, hurls, acquire, Option.toList]
      | some api_urls =>
        by_cases he : api_urls.isEmpty
        · simp [h, horacle, hurls, he, acquire, Option.toList]
        · simp [h, horacle, hurls, he, acquire, Option.toList]

theorem mapLocalDev_eq_keyedStore (req : List String)
    (api_urls : List (String × String)) (ov : List (String × String)) :
    mapLocalDev req api_urls ov
      = req.foldl (keyedStore (fun t => alookup api_urls (remoteNameOf t))) ov := rfl

theorem alookup_groupedOverrides_of_ungrouped
    (oracle : String → Option SandboxResponse) (server_names : List String)
    (k : String) (hk : isLocalDevName k = false) :
    alookup (groupedOverrides oracle server_names) k = none := by
  unfold groupedOverrides
  by_cases he : (server_names.filter (fun n => isLocalDevName n)).isEmpty
  · simp [he, alookup]
  · rw [if_neg he]
    cases ho : oracle "local_dev" with
    | none => rfl
    | some r =>
      cases hurls : r.server_urls with
      | none => simp [hurls, alookup]
      | some api_urls =>
        by_cases hae : api_urls.isEmpty
        · simp [hurls, hae, alookup]
        · simp only [hurls]
          rw [if_neg hae, mapLocalDev_eq_keyedStore, alookup_foldl_keyedStore]
          rw [if_neg ?_, alookup]
          rintro ⟨hmem, -⟩
          rw [List.mem_filter] at hmem
          rw [hmem.2] at hk
          cases hk

theorem overrides_alookup_char (oracle : String → Option SandboxResponse)
    (server_names : List String)
    (hwf : WellFormedUngrouped oracle server_names) (k : String) :
    alookup (acquire_for_servers oracle server_names []).overrides k
      = if k ∈ server_names.filter (fun n => !isLocalDevName n)
            ∧ (uVal oracle k).isSome
        then uVal oracle k
        else alookup (groupedOverrides oracle server_names) k := by
  rw [acquire_for_servers_eq, foldl_acquireOther_overrides]
  have hext : ∀ ov : List (String × String),
      ∀ n ∈ server_names.filter (fun n => !isLocalDevName n),
      ovStep oracle n ov = keyedStore (uVal oracle) ov n := by
    intro ov n hn
    have hn' := List.mem_filter.mp hn
    have hng : isLocalDevName n = false := by
      have := hn'.2
      cases h : isLocalDevName n
      · rfl
      · rw [h] at this; cases this
    rcases hwf n hn'.1 hng with hfail | ⟨r, u, hr, hurls⟩
    · simp [ovStep, keyedStore, uVal, hfail]
    · simp [ovStep, keyedStore, uVal, hr, hurls, applyUrlPairs, keyFor]
  rw [List.foldl_ext _ (keyedStore (uVal oracle)) _ hext,
    alookup_foldl_keyedStore]

/-- C2: for every requested list of logical names, `acquire_for_servers`
issues exactly one acquisition call per name outside the grouped
(local_dev) set — for its resolved sandbox name, in request order — plus
exactly one shared `local_dev` call when at least one grouped name was
requested, however many grouped names there are. -/
theorem acquireMany_call_trace (oracle : String → Option SandboxResponse)
    (server_names : List String) (init : List SandboxResponse) :
    (acquire_for_servers oracle server_names init).calls
      = (if server_names.any (fun n => isLocalDevName n)
          then ["local_dev"] else [])
        ++ (server_names.filter (fun n => !isLocalDevName n)).map resolveSandboxName
    ∧ (acquire_for_servers oracle server_names init).calls.length
      = (server_names.filter (fun n => !isLocalDevName n)).length
        + (if server_names.any (fun n => isLocalDevName n) then 1 else 0) := by
  have hfilter : (server_names.filter (fun n => isLocalDevName n)).isEmpty
      = !(server_names.any (fun n => isLocalDevName n)) := by
    cases hany : server_names.any (fun n => isLocalDevName n) with
    | false =>
      have : server_names.filter (fun n => isLocalDevName n) = [] := by
        rw [List.filter_eq_nil_iff]
        intro a ha hpa
        have : server_names.any (fun n => isLocalDevName n) = true :=
          List.any_eq_true.mpr ⟨a, ha, hpa⟩
        rw [hany] at this; cases this
      simp [this]
    | true =>
      rcases List.any_eq_true.mp hany with ⟨x, hx, hpx⟩
      have : ¬ server_names.filter (fun n => isLocalDevName n) = [] := by
        intro hnil
        exact (List.filter_eq_nil_iff.mp hnil) x hx hpx
      simp [List.isEmpty_iff, this]
  have h1 : (acquire_for_servers oracle server_names init).calls
      = (if server_names.any (fun n => isLocalDevName n)
          then ["local_dev"] else [])
        ++ (server_names.filter (fun n => !isLocalDevName n)).map
            resolveSandboxName := by
    rw [acquire_for_servers_eq, foldl_acquireOther_calls, hfilter]
    cases hany : server_names.any (fun n => isLocalDevName n) <;> simp [hany]
  refine ⟨h1, ?_⟩
  rw [h1, List.length_append, List.length_map]
  cases hany : server_names.any (fun n => isLocalDevName n) <;>
    simp [hany, Nat.add_comm]

/-- C3: `release_all` is idempotent — the collection is empty after every
invocation, a second invocation issues zero delete calls — and the
clearing does not depend on the per-call release outcomes (each failure is
only logged and swallowed; the operation returns normally for every
oracle, so no error is ever propagated). -/
theorem releaseAll_idempotent (o o' : String → String → Bool)
    (s : List SandboxResponse) :
    (release_all o s).state = []
    ∧ (release_all o' (release_all o s).state).deletes = []
    ∧ (release_all o' (release_all o s).state).state = []
    ∧ release_all o s = release_all o' s :=
  ⟨rfl, rfl, rfl, rfl⟩

/-- C4: every successful acquisition call's response body is appended to
the session's tracked collection — the collection equals the initial one
plus exactly the successful responses of the issued calls, in order — so a
response whose `server_urls` is missing or unusable is still tracked and
still reachable by `release_all`. -/
theorem acquire_records_before_url_mapping
    (oracle : String → Option SandboxResponse) (server_names : List String)
    (init : List SandboxResponse) :
    (acquire_for_servers oracle server_names init).acquired
      = init ++ ((acquire_for_servers oracle server_names init).calls).filterMap oracle
    ∧ ∀ c r, c ∈ (acquire_for_servers oracle server_names init).calls →
        oracle c = some r →
        r ∈ (acquire_for_servers oracle server_names init).acquired := by
  have h1 : (acquire_for_servers oracle server_names init).acquired
      = init ++ ((acquire_for_servers oracle server_names init).calls).filterMap
          oracle := by
    rw [acquire_for_servers_eq, foldl_acquireOther_acquired,
      foldl_acquireOther_calls, List.filterMap_append, List.filterMap_map,
      List.append_assoc]
    congr 2
    by_cases he : (server_names.filter (fun n => isLocalDevName n)).isEmpty
    · simp [he]
    · rw [if_neg he, if_neg he]
      cases ho : oracle "local_dev" with
      | none => simp [List.filterMap_cons, ho, Option.toList]
      | some r => simp [List.filterMap_cons, ho, Option.toList]
  refine ⟨h1, ?_⟩
  intro c r hc hr
  rw [h1]
  exact List.mem_append_right _ (List.mem_filterMap.mpr ⟨c, hc, hr⟩)

/-- C4 witness: a `local_dev` response without a `server_urls` field is
still recorded in the tracked collection. -/
theorem acquire_records_before_url_mapping_witness :
    (⟨some "sb-ld", some "local_dev", none⟩ : SandboxResponse)
      ∈ (acquire_for_servers c4Oracle ["filesystem"] []).acquired :=
  (acquire_records_before_url_mapping c4Oracle ["filesystem"] []).2
    "local_dev" ⟨some "sb-ld", some "local_dev", none⟩ (by decide) (by decide)

/-- C9: constructing the sandbox manager with no truthy credential (no
argument and nothing in the environment) fails with
`ValueError("KLAVIS_API_KEY is required")`, and every successfully
constructed instance holds a non-empty credential. -/
theorem init_requires_credential :
    (∀ api_key env_value : Option String,
        truthyStr api_key = false → truthyStr env_value = false →
        KlavisSandbox_init api_key env_value
          = Except.error "KLAVIS_API_KEY is required")
    ∧ (∀ (api_key env_value : Option String) (st : KlavisSandboxState),
        KlavisSandbox_init api_key env_value = Except.ok st →
        st.api_key ≠ "") := by
  constructor
  · intro a e ha he
    have he' : e = none ∨ e = some "" := by
      cases e with
      | none => exact Or.inl rfl
      | some ev =>
        refine Or.inr ?_
        by_cases hev : ev = ""
        · rw [hev]
        · simp [truthyStr, hev] at he
    have ha' : a = none ∨ a = some "" := by
      cases a with
      | none => exact Or.inl rfl
      | some av =>
        refine Or.inr ?_
        by_cases hav : av = ""
        · rw [hav]
        · simp [truthyStr, hav] at ha
    rcases ha' with rfl | rfl <;> rcases he' with rfl | rfl <;> rfl
  · intro a e st hok hkey
    unfold KlavisSandbox_init at hok
    cases hoe : orElseTruthy a e with
    | none => simp [hoe] at hok
    | some k =>
      simp only [hoe] at hok
      by_cases hk : k = ""
      · rw [if_pos hk] at hok
        simp at hok
      · rw [if_neg hk] at hok
        cases hok
        exact hk hkey

/-- C9 witness: the constructor fails for an absent and for an empty
credential, and a constructed instance's key is non-empty. -/
theorem init_requires_credential_witness :
    KlavisSandbox_init none none = Except.error "KLAVIS_API_KEY is required"
    ∧ KlavisSandbox_init (some "") (some "")
        = Except.error "KLAVIS_API_KEY is required"
    ∧ (KlavisSandboxState.mk "secret" []).api_key ≠ "" :=
  ⟨init_requires_credential.1 none none rfl rfl,
   init_requires_credential.1 (some "") (some "") rfl rfl,
   init_requires_credential.2 (some "secret") none ⟨"secret", []⟩ rfl⟩

/-- C10: a tracked record missing its `sandbox_id` or `server_name` field
contributes no delete call — removing it from the collection leaves the
whole `release_all` outcome unchanged — yet the unconditional clear still
discards it: the session is empty afterwards. -/
theorem releaseAll_skips_incomplete_record (o : String → String → Bool)
    (pre post : List SandboxResponse) (sb : SandboxResponse)
    (h : sb.sandbox_id = none ∨ sb.server_name = none) :
    release_all o (pre ++ sb :: post) = release_all o (pre ++ post)
    ∧ (release_all o (pre ++ sb :: post)).state = [] := by
  have hnone : deleteCallOf sb = none := by
    rcases h with h | h
    · cases hsn : sb.server_name <;> simp [deleteCallOf, h, hsn]
    · cases hsi : sb.sandbox_id <;> simp [deleteCallOf, h, hsi]
  exact ⟨by simp [release_all, List.filterMap_append, List.filterMap_cons, hnone],
    rfl⟩

/-- C10 witness: a record with no `sandbox_id` is skipped by the delete
loop and discarded by the clear. -/
theorem releaseAll_skips_incomplete_record_witness :
    release_all (fun _ _ => false) ([] ++ c10Record :: [c10Other])
        = release_all (fun _ _ => false) ([] ++ [c10Other])
    ∧ (release_all (fun _ _ => false) ([] ++ c10Record :: [c10Other])).state
        = [] :=
  releaseAll_skips_incomplete_record (fun _ _ => false) [] [c10Other]
    c10Record (Or.inl rfl)

/-- C1 counterexample: a single successful ungrouped acquisition (one call,
for `emails` resolved to `poste_email_toolathlon`) whose response carries a
two-entry `server_urls` map contributes two entries to the override map,
not one — the loop stores every pair, not only the first. -/
theorem acquireMany_first_pair_counterexample :
    ((acquire_for_servers c1Oracle ["emails"] []).calls).length = 1
    ∧ (acquire_for_servers c1Oracle ["emails"] []).overrides
        = [("alpha", "u1"), ("beta", "u2")]
    ∧ ((acquire_for_servers c1Oracle ["emails"] []).overrides).length = 2 := by
  refine ⟨?_, ?_, ?_⟩ <;> decide

/-- C1 amended: for an ungrouped requested name whose acquisition succeeds,
`acquire_for_servers` stores every `(sname, surl)` pair of the response's
`server_urls` map — one override entry per pair when the derived keys are
distinct — keyed by the literal requested name when the pair's key equals
the resolved resource-type name and by the pair's own key otherwise. -/
theorem acquireMany_all_pairs_keyed (oracle : String → Option SandboxResponse)
    (name : String) (r : SandboxResponse) (urls : List (String × String))
    (hng : isLocalDevName name = false)
    (ho : oracle (resolveSandboxName name) = some r)
    (hurls : r.server_urls = some urls)
    (hnd : (urls.map (keyFor name (resolveSandboxName name))).Nodup) :
    ((acquire_for_servers oracle [name] []).overrides).length = urls.length
    ∧ ∀ p ∈ urls,
        alookup (acquire_for_servers oracle [name] []).overrides
          (keyFor name (resolveSandboxName name) p) = some p.2 := by
  have hov : (acquire_for_servers oracle [name] []).overrides
      = applyUrlPairs name (resolveSandboxName name) urls [] := by
    rw [acquire_for_servers_eq, foldl_acquireOther_overrides]
    simp [hng, groupedOverrides, ovStep, ho, hurls]
  refine ⟨?_, ?_⟩
  · rw [hov, applyUrlPairs_length name (resolveSandboxName name) urls []
      hnd (fun p _ => rfl)]
    simp
  · intro p hp
    rw [hov]
    exact alookup_applyUrlPairs_mem _ _ _ _ p hp hnd

/-- C1 amended witness: both pairs of the two-entry response land in the
override map under the pair keys (which differ from the resolved
resource-type name). -/
theorem acquireMany_all_pairs_keyed_witness :
    ((acquire_for_servers c1Oracle ["emails"] []).overrides).length
        = ([("alpha", "u1"), ("beta", "u2")] : List (String × String)).length
    ∧ alookup (acquire_for_servers c1Oracle ["emails"] []).overrides
        (keyFor "emails" (resolveSandboxName "emails") ("alpha", "u1"))
        = some "u1" := by
  have h := acquireMany_all_pairs_keyed c1Oracle "emails"
    ⟨some "sb-1", some "poste_email_toolathlon",
      some [("alpha", "u1"), ("beta", "u2")]⟩
    [("alpha", "u1"), ("beta", "u2")]
    (by decide) (by decide) rfl (by decide)
  exact ⟨h.1, h.2 ("alpha", "u1") (by decide)⟩

/-- C5: under the documented response shape for ungrouped names, when the
acquisition call for a requested ungrouped name X fails, the override map
has no entry for X at all (absence, not an error value), while every other
successfully acquired requested name — ungrouped or grouped via the shared
local_dev sandbox — keeps its URL in the map: the run is not atomic and
partial success is returned normally. -/
theorem acquireMany_failure_isolation (oracle : String → Option SandboxResponse)
    (server_names : List String) (X : String)
    (hwf : WellFormedUngrouped oracle server_names)
    (hX : X ∈ server_names) (hXng : isLocalDevName X = false)
    (hfail : oracle (resolveSandboxName X) = none) :
    alookup (acquire_for_servers oracle server_names []).overrides X = none
    ∧ (∀ n ∈ server_names, isLocalDevName n = false →
        ∀ r u, oracle (resolveSandboxName n) = some r →
          r.server_urls = some [(resolveSandboxName n, u)] →
          alookup (acquire_for_servers oracle server_names []).overrides n
            = some u)
    ∧ (∀ g ∈ server_names, isLocalDevName g = true →
        ∀ r api_urls u, oracle "local_dev" = some r →
          r.server_urls = some api_urls →
          alookup api_urls (remoteNameOf g) = some u →
          alookup (acquire_for_servers oracle server_names []).overrides g
            = some u) := by
  refine ⟨?_, ?_, ?_⟩
  · rw [overrides_alookup_char oracle server_names hwf X]
    have huv : uVal oracle X = none := by simp [uVal, hfail]
    rw [if_neg (by rintro ⟨-, hs⟩; rw [huv] at hs; cases hs)]
    exact alookup_groupedOverrides_of_ungrouped oracle server_names X hXng
  · intro n hn hng r u hr hurls
    rw [overrides_alookup_char oracle server_names hwf n]
    have huv : uVal oracle n = some u := by simp [uVal, hr, hurls]
    rw [if_pos ⟨List.mem_filter.mpr ⟨hn, by rw [hng]; rfl⟩,
      by rw [huv]; rfl⟩]
    exact huv
  · intro g hg hgld r api_urls u hld hurls hapi
    rw [overrides_alookup_char oracle server_names hwf g]
    rw [if_neg ?hno]
    case hno =>
      rintro ⟨hmem, -⟩
      have := (List.mem_filter.mp hmem).2
      rw [hgld] at this
      cases this
    have hgmem : g ∈ server_names.filter (fun n => isLocalDevName n) :=
      List.mem_filter.mpr ⟨hg, hgld⟩
    have hne : ¬ (server_names.filter (fun n => isLocalDevName n)).isEmpty = true := by
      intro hemp
      rw [List.isEmpty_iff] at hemp
      rw [hemp] at hgmem
      cases hgmem
    have hane : ¬ api_urls.isEmpty = true := by
      intro hemp
      rw [List.isEmpty_iff] at hemp
      rw [hemp] at hapi
      cases hapi
    unfold groupedOverrides
    rw [if_neg hne, hld]
    simp only [hurls]
    rw [if_neg hane, mapLocalDev_eq_keyedStore, alookup_foldl_keyedStore,
      if_pos ⟨hgmem, by rw [hapi]; rfl⟩]
    exact hapi

/-- C5 witness: with `notion` failing, `emails` and the grouped
`filesystem` keep their URLs while `notion` is absent from the map. -/
theorem acquireMany_failure_isolation_witness :
    alookup (acquire_for_servers c5Oracle
        ["filesystem", "emails", "notion"] []).overrides "notion" = none
    ∧ alookup (acquire_for_servers c5Oracle
        ["filesystem", "emails", "notion"] []).overrides "emails"
        = some "u-em"
    ∧ alookup (acquire_for_servers c5Oracle
        ["filesystem", "emails", "notion"] []).overrides "filesystem"
        = some "u-fs" := by
  have hwf : WellFormedUngrouped c5Oracle ["filesystem", "emails", "notion"] := by
    intro n hn hng
    rcases List.mem_cons.mp hn with rfl | hn'
    · cases hng
    rcases List.mem_cons.mp hn' with rfl | hn''
    · exact Or.inr ⟨⟨some "sb-em", some "poste_email_toolathlon",
        some [("poste_email_toolathlon", "u-em")]⟩, "u-em", rfl, rfl⟩
    rcases List.mem_cons.mp hn'' with rfl | hn'''
    · exact Or.inl rfl
    cases hn'''
  have h := acquireMany_failure_isolation c5Oracle
    ["filesystem", "emails", "notion"] "notion" hwf (by decide) (by decide) rfl
  refine ⟨h.1, ?_, ?_⟩
  · exact h.2.1 "emails" (by decide) (by decide)
      ⟨some "sb-em", some "poste_email_toolathlon",
        some [("poste_email_toolathlon", "u-em")]⟩ "u-em" rfl rfl
  · exact h.2.2 "filesystem" (by decide) (by decide)
      ⟨some "sb-ld", some "local_dev", some [("filesystem", "u-fs")]⟩
      [("filesystem", "u-fs")] "u-fs" rfl rfl rfl

/-! ### Archive sync theorems -/

theorem extractall_written_inside (directory : List String)
    (archive : List TarMember) (p : List String)
    (hp : p ∈ (extractall directory archive).1) :
    ∃ rest, p = directory ++ rest := by
  induction archive with
  | nil => cases hp
  | cons m rest ih =>
    cases hres : dataFilterResolve m.name with
    | none =>
      simp [extractall, hres] at hp
    | some r =>
      simp only [extractall, hres] at hp
      rcases List.mem_cons.mp hp with rfl | hp'
      · exact ⟨r, rfl⟩
      · exact ih hp'

theorem extractall_rejects (directory : List String)
    (archive : List TarMember) (e : TarMember)
    (he : e ∈ archive) (hres : dataFilterResolve e.name = none) :
    (extractall directory archive).2
      = Except.error "filter: path outside destination" := by
  induction archive with
  | nil => cases he
  | cons m rest ih =>
    rcases List.mem_cons.mp he with rfl | he'
    · simp [extractall, hres]
    · cases hm : dataFilterResolve m.name with
      | none => simp [extractall, hm]
      | some r =>
        simp only [extractall, hm]
        exact ih he'

theorem mem_makedirs (dirs : List (List String)) (d : List String) :
    d ∈ makedirs dirs d := by
  unfold makedirs
  by_cases h : dirs.contains d
  · rw [if_pos h]
    rcases List.contains_iff_exists_mem_beq.mp h with ⟨b, hb, hbeq⟩
    rw [eq_of_beq hbeq]
    exact hb
  · rw [if_neg h]
    exact List.mem_append_right _ (List.mem_singleton.mpr rfl)

theorem download_workspace_dirs (dirs0 : List (List String))
    (directory : List String) (dumpOracle : Option String)
    (gcsOracle : String → Option (List TarMember)) :
    (download_workspace dirs0 directory dumpOracle gcsOracle).dirs
      = makedirs dirs0 directory := by
  unfold download_workspace
  cases dumpOracle with
  | none => rfl
  | some u =>
    cases hg : gcsOracle u with
    | none => simp [hg]
    | some archive => simp [hg]

/-- C6: `download_workspace` creates the destination directory (before the
transfer steps, so it exists in every outcome), every file the extraction
writes resolves under that directory, and a member whose name resolves
outside — such as `../../etc/passwd` — makes the extraction filter reject
the archive with an error instead of writing it. -/
theorem download_extraction_safety :
    (∀ (dirs0 : List (List String)) (directory : List String)
        (dumpOracle : Option String)
        (gcsOracle : String → Option (List TarMember)),
      directory ∈ (download_workspace dirs0 directory dumpOracle gcsOracle).dirs)
    ∧ (∀ (dirs0 : List (List String)) (directory : List String)
        (dumpOracle : Option String)
        (gcsOracle : String → Option (List TarMember)) (p : List String),
      p ∈ (download_workspace dirs0 directory dumpOracle gcsOracle).written →
      ∃ rest, p = directory ++ rest)
    ∧ (∀ (dirs0 : List (List String)) (directory : List String) (u : String)
        (gcsOracle : String → Option (List TarMember))
        (archive : List TarMember) (e : TarMember),
      gcsOracle u = some archive → e ∈ archive →
      dataFilterResolve e.name = none →
      (download_workspace dirs0 directory (some u) gcsOracle).outcome
        = Except.error "filter: path outside destination")
    ∧ dataFilterResolve ⟨false, ["..", "..", "etc", "passwd"]⟩ = none := by
  refine ⟨?_, ?_, ?_, ?_⟩
  · intro dirs0 directory dumpOracle gcsOracle
    rw [download_workspace_dirs]
    exact mem_makedirs dirs0 directory
  · intro dirs0 directory dumpOracle gcsOracle p hp
    unfold download_workspace at hp
    cases dumpOracle with
    | none => cases hp
    | some u =>
      cases hg : gcsOracle u with
      | none => simp [hg] at hp
      | some archive =>
        simp only [hg] at hp
        exact extractall_written_inside directory archive p hp
  · intro dirs0 directory u gcsOracle archive e hg he hres
    unfold download_workspace
    simp only [hg]
    exact extractall_rejects directory archive e he hres
  · decide

/-- C6 witness: a concrete traversal archive is rejected with no file
written, the destination directory is created even though the dump request
failed, and a benign archive's single write lands under the destination. -/
theorem download_extraction_safety_witness :
    ["tmp", "ws"] ∈ (download_workspace [] ["tmp", "ws"] none
        (fun _ => none)).dirs
    ∧ (download_workspace [] ["tmp", "ws"] (some "url")
        (fun _ => some c6Archive)).outcome
        = Except.error "filter: path outside destination"
    ∧ (["tmp", "ws", "sub", "a.txt"] = ["tmp", "ws"] ++ ["sub", "a.txt"]) := by
  refine ⟨download_extraction_safety.1 [] ["tmp", "ws"] none (fun _ => none),
    download_extraction_safety.2.2.1 [] ["tmp", "ws"] "url"
      (fun _ => some c6Archive) c6Archive ⟨⟨false, ["..", "..", "etc", "passwd"]⟩, [7]⟩
      rfl (by simp [c6Archive]) (by decide), ?_⟩
  rcases download_extraction_safety.2.1 [] ["tmp", "ws"] (some "url")
      (fun _ => some c6GoodArchive) ["tmp", "ws", "sub", "a.txt"]
      (by decide) with ⟨rest, hrest⟩
  decide

/-- C7: with at least one file collected, `upload_workspace` is
all-or-nothing — whichever of the three steps (signed upload-URL request,
archive `PUT`, initialize trigger) fails, the run stops there, no later
step is issued, and the failure is raised to the caller as an error. -/
theorem upload_fail_fast (sandbox_id : String) (directory : List FSEntry)
    (urlOracle : Option String)
    (putOracle : String → List (List String × List Nat) → Bool)
    (initOracle : Option String)
    (hne : ¬ (collectChildren [] directory).isEmpty = true) :
    (urlOracle = none →
      upload_workspace sandbox_id directory urlOracle putOracle initOracle
        = ([UploadStep.getUploadUrl], Except.error "upload-url request failed"))
    ∧ (∀ url, urlOracle = some url →
        putOracle url (collectChildren [] directory) = false →
        upload_workspace sandbox_id directory urlOracle putOracle initOracle
          = ([UploadStep.getUploadUrl, UploadStep.putToGcs],
             Except.error "gcs upload failed"))
    ∧ (∀ url, urlOracle = some url →
        putOracle url (collectChildren [] directory) = true →
        initOracle = none →
        upload_workspace sandbox_id directory urlOracle putOracle initOracle
          = ([UploadStep.getUploadUrl, UploadStep.putToGcs,
              UploadStep.triggerInit],
             Except.error "initialize request failed")) := by
  refine ⟨?_, ?_, ?_⟩
  · intro hu
    simp [upload_workspace, hne, hu]
  · intro url hu hput
    simp [upload_workspace, hne, hu, hput]
  · intro url hu hput hinit
    simp [upload_workspace, hne, hu, hput, hinit]

/-- C7 witness: with one collected file and a failing upload-URL request,
only that first step is issued and the run ends in an error. -/
theorem upload_fail_fast_witness :
    upload_workspace "sb" c7Dir none (fun _ _ => true) (some "ok")
      = ([UploadStep.getUploadUrl], Except.error "upload-url request failed") :=
  (upload_fail_fast "sb" c7Dir none (fun _ _ => true) (some "ok")
    (by decide)).1 rfl

/-- C8: when the directory contains no regular file, `upload_workspace`
returns the no-op success result (an `ok` value, distinguishable from an
error) and issues none of the three remote transfer steps. -/
theorem upload_empty_noop (sandbox_id : String) (directory : List FSEntry)
    (urlOracle : Option String)
    (putOracle : String → List (List String × List Nat) → Bool)
    (initOracle : Option String)
    (hempty : collectChildren [] directory = []) :
    upload_workspace sandbox_id directory urlOracle putOracle initOracle
      = ([], Except.ok
          (UploadOutcome.noop sandbox_id "idle" "No files to upload")) := by
  simp [upload_workspace, hempty]

/-- C8 witness: a directory tree holding only (nested) empty
subdirectories uploads as a no-op with an empty step trace. -/
theorem upload_empty_noop_witness :
    upload_workspace "sb" c8EmptyDir none (fun _ _ => false) none
      = ([], Except.ok (UploadOutcome.noop "sb" "idle" "No files to upload")) :=
  upload_empty_noop "sb" c8EmptyDir none (fun _ _ => false) none rfl

end KlavisVerif
